import Mathlib

/-!
Verification development for the CloudTranslate translation-session controller
(`translator.py`).  Python strings are modelled as lists of characters
(`PyStr`); machine-independent integers are `Int`/`Nat` (Python integers do
not overflow).  The language catalog, usage ledger, history log and the
`translate` controller are embedded as executable Lean functions translated
from the source, and the spec's testable properties are settled against them.
-/

/-- Python strings modelled as lists of Unicode code points. -/
abbrev PyStr := List Char

/-- Coerce a Lean string literal to the `PyStr` model. -/
def pstr (s : String) : PyStr := s.data

/-- Model of Python `str.strip()`: remove leading and trailing whitespace. -/
def py_strip (s : PyStr) : PyStr :=
  ((s.dropWhile Char.isWhitespace).reverse.dropWhile Char.isWhitespace).reverse

/-- Model of Python `str.strip(c)` with a one-character argument: remove all
leading and trailing occurrences of `c`. -/
def py_strip_char (c : Char) (s : PyStr) : PyStr :=
  ((s.dropWhile (· = c)).reverse.dropWhile (· = c)).reverse

/-- Model of Python `s.startswith(t)`. -/
def py_startswith (s t : PyStr) : Bool :=
  decide (s.take t.length = t)

/-- Model of Python `s.endswith(t)`. -/
def py_endswith (s t : PyStr) : Bool :=
  decide (s.drop (s.length - t.length) = t)

/-- Model of Python `s.split(sep)[-1]` for a one-character separator: the text
after the last occurrence of `c` (the whole string when `c` is absent). -/
def after_last (c : Char) (s : PyStr) : PyStr :=
  (s.reverse.takeWhile (· ≠ c)).reverse

/-!
## Language catalog (`translator.py` lines 129-192)
-/

/-- `LANG_CODES`: the static code-to-display-name table. -/
def LANG_CODES : List (PyStr × PyStr) :=
  [ (pstr "en", pstr "English"),
    (pstr "th", pstr "Thai"),
    (pstr "ar", pstr "Arabic"),
    (pstr "zh", pstr "Chinese"),
    (pstr "fr", pstr "French"),
    (pstr "ru", pstr "Russian"),
    (pstr "es", pstr "Spanish"),
    (pstr "ja", pstr "Japanese"),
    (pstr "ko", pstr "Korean"),
    (pstr "de", pstr "German") ]

/-- `LANG_CODES.get(code, code)`: dictionary lookup with the code itself as
the default. -/
def lang_name (code : PyStr) : PyStr :=
  match LANG_CODES.lookup code with
  | some n => n
  | none => code

/-- `format_lang(code)`: the rendered entry `"Name (code)"`. -/
def format_lang (code : PyStr) : PyStr :=
  lang_name code ++ pstr " (" ++ code ++ pstr ")"

/-- `build_lang_display_list()`: the fixed ComboBox list with the two group
separators. -/
def build_lang_display_list : List PyStr :=
  [format_lang (pstr "en"), format_lang (pstr "th"),
   pstr "--- WHO Languages ---"] ++
  [pstr "ar", pstr "zh", pstr "fr", pstr "ru", pstr "es"].map format_lang ++
  [pstr "--- Extra Languages ---"] ++
  [pstr "ja", pstr "ko", pstr "de"].map format_lang

/-- `is_separator_item(text)`: `text.strip().startswith("---")`. -/
def is_separator_item (text : PyStr) : Bool :=
  py_startswith (py_strip text) (pstr "---")

/-- The rendered suffix `"(code)"` searched for by `get_display_for_code`. -/
def code_part (code : PyStr) : PyStr :=
  pstr "(" ++ code ++ pstr ")"

/-- The `for item in display_list` loop of `get_display_for_code`: skip
separator items, return the first item ending in `cp`. -/
def find_display (cp : PyStr) : List PyStr → Option PyStr
  | [] => none
  | item :: rest =>
    if is_separator_item item then find_display cp rest
    else if py_endswith item cp then some item
    else find_display cp rest

/-- `get_display_for_code(code, display_list)`: first display string matching
the language code, else `display_list[0]`.  `none` models the `IndexError`
raised by `display_list[0]` on an empty list. -/
def get_display_for_code (code : PyStr) (display_list : List PyStr) : Option PyStr :=
  match find_display (code_part code) display_list with
  | some item => some item
  | none => display_list.head?

/-- `parse_lang(display_text)`: `display_text.split("(")[-1].strip(")")` when
both parentheses occur in the text, the text unchanged otherwise. -/
def parse_lang (display_text : PyStr) : PyStr :=
  if '(' ∈ display_text ∧ ')' ∈ display_text then
    py_strip_char ')' (after_last '(' display_text)
  else display_text

example : parse_lang (pstr "English (en)") = pstr "en" := by decide
example : parse_lang (pstr "en") = pstr "en" := by decide
example : parse_lang (pstr "English (en))") = pstr "en" := by decide
example : get_display_for_code (pstr "th") build_lang_display_list
    = some (pstr "Thai (th)") := by decide
example : get_display_for_code (pstr "xx") build_lang_display_list
    = some (pstr "English (en)") := by decide
example : is_separator_item (pstr "--- WHO Languages ---") = true := by decide

/-!
## Usage ledger (`translator.py` lines 51-87) and history log (lines 90-121,
527-531)
-/

/-- The `usage.json` record: `month_key`, `used_chars`, `monthly_limit`. -/
structure UsageData where
  month_key : PyStr
  used_chars : Int
  monthly_limit : Int
deriving DecidableEq

/-- A `history.json` entry. -/
structure HistoryEntry where
  timestamp : PyStr
  source_lang : PyStr
  target_lang : PyStr
  chars : Nat
  source_text : PyStr
  translated_text : PyStr
deriving DecidableEq

/-- The usage file's contents as seen by `load_usage`/`save_usage` (`none`
when `usage.json` does not exist). -/
structure UsageStore where
  usage_file : Option UsageData
deriving DecidableEq

/-- `load_usage(monthly_limit)`: create-with-defaults when the file is
absent; otherwise reset `used_chars`/`month_key` when the stored month key
is not the current one, overwrite `monthly_limit` from config, and persist.
Returns the reconciled record together with the store after the
`save_usage` call. -/
def load_usage (monthly_limit : Int) (current_month_key : PyStr)
    (store : UsageStore) : UsageData × UsageStore :=
  match store.usage_file with
  | none =>
    let data : UsageData :=
      { month_key := current_month_key, used_chars := 0,
        monthly_limit := monthly_limit }
    (data, { usage_file := some data })
  | some stored =>
    let data :=
      if stored.month_key ≠ current_month_key then
        { stored with month_key := current_month_key, used_chars := 0 }
      else stored
    let data := { data with monthly_limit := monthly_limit }
    (data, { usage_file := some data })

/-- `append_history_entry(entry)` on the in-memory entry list:
`insert(0, entry)` then truncate to the first 500 entries when the cap is
exceeded. -/
def append_history_entry (entries : List HistoryEntry)
    (entry : HistoryEntry) : List HistoryEntry :=
  let entries := entry :: entries
  if entries.length > 500 then entries.take 500 else entries

/-!
## External translation collaborator (`google_translate`, lines 199-221)
-/

/-- The exceptions `translate` can see from `google_translate`:
`requests.HTTPError` from `raise_for_status`, a network-level `requests`
exception from `post`, and `ValueError` (malformed JSON body or
`"No translation returned from API."`). -/
inductive ApiException where
  | httpError (status : Nat) (body : PyStr)
  | requestFailure (msg : PyStr)
  | valueError (msg : PyStr)
deriving DecidableEq

/-- One response of the external HTTP collaborator for a single `post`:
either the request itself fails, or a status plus body arrives; `json` is
`none` when the body is not parseable JSON, and otherwise holds
`res_json.get("data", {}).get("translations", [])` with each item's
`translatedText` field (`none` when the key is absent). -/
inductive ApiBehavior where
  | netFail (msg : PyStr)
  | respond (status : Nat) (body : PyStr) (json : Option (List (Option PyStr)))
deriving DecidableEq

/-- `google_translate(api_key, text, source, target)`: post, then
`raise_for_status` (HTTP 400-599), then extract the first translation; an
empty translation list raises `ValueError`. -/
def google_translate (api : ApiBehavior) : Except ApiException PyStr :=
  match api with
  | .netFail msg => .error (.requestFailure msg)
  | .respond status body json =>
    if 400 ≤ status ∧ status < 600 then .error (.httpError status body)
    else
      match json with
      | none => .error (.valueError (pstr "Expecting value"))
      | some [] => .error (.valueError (pstr "No translation returned from API."))
      | some (t :: _) => .ok (t.getD [])

/-!
## Session controller (`TranslatorApp.translate`, lines 572-644)
-/

/-- The three yes/no confirmation gates of `translate`. -/
inductive Gate where
  | sameLang
  | largeText
  | overLimit
deriving DecidableEq

/-- Externally observable events of one `translate` invocation: a confirmation
gate asked (with the user's answer) or the single external translation call
(with its arguments). -/
inductive Event where
  | gateAsked (g : Gate) (answer : Bool)
  | apiCall (text : PyStr) (source_lang target_lang : PyStr)
deriving DecidableEq

/-- True on the external-call event. -/
def is_api_event : Event → Bool
  | .apiCall _ _ _ => true
  | _ => false

/-- Position of each event kind in the fixed validation order of
`translate`. -/
def event_rank : Event → Nat
  | .gateAsked .sameLang _ => 0
  | .gateAsked .largeText _ => 1
  | .gateAsked .overLimit _ => 2
  | .apiCall _ _ _ => 3

/-- The user's answers to the `messagebox.askyesno` prompts, supplied by the
presentation collaborator. -/
structure Confirmations where
  sameLang : Bool
  largeText : Bool
  overLimit : Bool
deriving DecidableEq

/-- The controller state touched by `translate`: the in-memory usage record
and history entries, plus the persisted copies written by
`save_usage`/`save_history`. -/
structure AppState where
  usage_data : UsageData
  history_entries : List HistoryEntry
  usage_file : Option UsageData
  history_file : Option (List HistoryEntry)
deriving DecidableEq

/-- The classified outcome of one `translate` invocation. -/
inductive TranslateResult where
  | emptyInput
  | cancelled
  | failed (e : ApiException)
  | success (translated : PyStr)
deriving DecidableEq

/-- `TranslatorApp.translate`: strip the input, reject empty text, parse the
two combo selections, run the same-language / large-text / quota gates in
order, call `google_translate` once, and on success commit the usage and
record the history entry.  `api` is the external collaborator's behavior for
the single call, `now_ts` the timestamp string.  Returns the classified
result, the state after the invocation, and the event trace. -/
def TranslatorApp.translate (st : AppState) (input : PyStr)
    (src_display tgt_display : PyStr) (conf : Confirmations)
    (api : ApiBehavior) (now_ts : PyStr) :
    TranslateResult × AppState × List Event :=
  let text := py_strip input
  if text = [] then (.emptyInput, st, [])
  else
    let source_lang := parse_lang src_display
    let target_lang := parse_lang tgt_display
    if source_lang = target_lang ∧ conf.sameLang = false then
      (.cancelled, st, [.gateAsked .sameLang false])
    else
      let tr0 : List Event :=
        if source_lang = target_lang then [.gateAsked .sameLang true] else []
      let char_count := text.length
      if 5000 ≤ char_count ∧ conf.largeText = false then
        (.cancelled, st, tr0 ++ [.gateAsked .largeText false])
      else
        let tr1 := tr0 ++
          (if 5000 ≤ char_count then [.gateAsked .largeText true] else [])
        let used := st.usage_data.used_chars
        let limit := st.usage_data.monthly_limit
        let upcoming_total := used + (char_count : Int)
        if limit < upcoming_total ∧ conf.overLimit = false then
          (.cancelled, st, tr1 ++ [.gateAsked .overLimit false])
        else
          let tr2 := tr1 ++
            (if limit < upcoming_total then [.gateAsked .overLimit true] else [])
          let tr3 := tr2 ++ [.apiCall text source_lang target_lang]
          match google_translate api with
          | .error e => (.failed e, st, tr3)
          | .ok translated =>
            let usage' := { st.usage_data with used_chars := upcoming_total }
            let entry : HistoryEntry :=
              { timestamp := now_ts, source_lang := source_lang,
                target_lang := target_lang, chars := char_count,
                source_text := text, translated_text := translated }
            let entries' := append_history_entry st.history_entries entry
            (.success translated,
             { usage_data := usage', history_entries := entries',
               usage_file := some usage', history_file := some entries' },
             tr3)

/-!
## Next reset date (`update_usage_labels`, lines 464-474) and the
persistence write pattern (`save_usage`/`save_history`, lines 85-87 and
119-121)
-/

/-- The informational reset date computed by `update_usage_labels` from the
parsed `month_key`: year advances by one exactly in December, the month
rolls to January in December and increments otherwise, the day is 1. -/
def next_reset (year month : Nat) : Nat × Nat × Nat :=
  (year + (if month = 12 then 1 else 0),
   (if month = 12 then 1 else month + 1),
   1)

/-- Linearisation of a (year, month) pair for stating the successor-month
property. -/
def month_index (year month : Nat) : Nat :=
  12 * year + (month - 1)

/-- The on-disk contents observable, in order, while `save_usage` or
`save_history` runs: `open(path, "w")` truncates the file in place and
`json.dump` then streams the serialized document into it, so the old
contents are followed by every prefix of the new contents (the empty file
right after truncation, up to the full document).  This models the write
pattern of the source, which does not use a temporary file plus atomic
replace. -/
def write_observable_states (old new : PyStr) : List PyStr :=
  old :: (List.range (new.length + 1)).map (fun k => new.take k)

/-!
## Theorems
-/

/-- Dropping while a predicate fails on every element leaves a list
unchanged (only the head matters, but the all-elements form is what the
catalog lemmas need). -/
theorem dropWhile_eq_self_of_forall {α : Type} (p : α → Bool) (l : List α)
    (h : ∀ x ∈ l, p x = false) : l.dropWhile p = l := by
  cases l with
  | nil => rfl
  | cons a as =>
    rw [List.dropWhile_cons, h a (List.mem_cons_self a as)]
    simp

/-- `takeWhile` walks through a block on which the predicate always holds. -/
theorem takeWhile_append_of_forall {α : Type} (p : α → Bool)
    (l₁ l₂ : List α) (h : ∀ x ∈ l₁, p x = true) :
    (l₁ ++ l₂).takeWhile p = l₁ ++ l₂.takeWhile p := by
  induction l₁ with
  | nil => rfl
  | cons a as ih =>
    rw [List.cons_append, List.takeWhile_cons, h a (List.mem_cons_self a as),
        if_pos rfl, ih (fun x hx => h x (List.mem_cons_of_mem a hx)),
        List.cons_append]

/-- `split(c)[-1]` really is the text after the last occurrence of `c`. -/
theorem after_last_append (c : Char) (pre rest : PyStr) (h : c ∉ rest) :
    after_last c (pre ++ c :: rest) = rest := by
  unfold after_last
  have h1 : (pre ++ c :: rest).reverse = rest.reverse ++ c :: pre.reverse := by
    simp
  rw [h1, takeWhile_append_of_forall _ _ _
        (fun x hx => by
          have : x ≠ c := fun e => h (e ▸ (List.mem_reverse.mp hx))
          simpa using this),
      List.takeWhile_cons]
  simp

/-- `strip(c)` removes exactly the closing sentinel from `code ++ [c]` when
`code` itself does not contain `c`. -/
theorem py_strip_char_append (c : Char) (code : PyStr) (h : c ∉ code) :
    py_strip_char c (code ++ [c]) = code := by
  have hall : ∀ x ∈ code, decide (x = c) = false := fun x hx =>
    decide_eq_false (fun e => h (e ▸ hx))
  unfold py_strip_char
  cases code with
  | nil => simp [List.dropWhile_cons]
  | cons a as =>
    have h1 : ((a :: as) ++ [c]).dropWhile (· = c) = (a :: as) ++ [c] := by
      rw [List.cons_append, List.dropWhile_cons,
          hall a (List.mem_cons_self a as)]
      simp
    have h2 : ((a :: as) ++ [c]).reverse = c :: (a :: as).reverse := by
      simp
    rw [h1, h2, List.dropWhile_cons]
    simp only [decide_True, if_true]
    rw [dropWhile_eq_self_of_forall _ _
          (fun x hx => hall x (List.mem_reverse.mp hx)),
        List.reverse_reverse]

/-- A hit of the `get_display_for_code` loop is a non-separator entry of the
list whose rendered suffix matches. -/
theorem find_display_some {cp : PyStr} {l : List PyStr} {x : PyStr}
    (h : find_display cp l = some x) :
    x ∈ l ∧ is_separator_item x = false ∧ py_endswith x cp = true := by
  induction l with
  | nil => simp [find_display] at h
  | cons a as ih =>
    rw [find_display] at h
    by_cases h1 : is_separator_item a
    · rw [if_pos h1] at h
      obtain ⟨hm, hs, he⟩ := ih h
      exact ⟨List.mem_cons_of_mem a hm, hs, he⟩
    · rw [if_neg h1] at h
      by_cases h2 : py_endswith a cp
      · rw [if_pos h2] at h
        injection h with hax
        subst hax
        exact ⟨List.mem_cons_self a as, Bool.eq_false_iff.mpr h1, h2⟩
      · rw [if_neg h2] at h
        obtain ⟨hm, hs, he⟩ := ih h
        exact ⟨List.mem_cons_of_mem a hm, hs, he⟩

/-- A hit of the `get_display_for_code` loop is the first match: everything
before it is a separator or fails the suffix test. -/
theorem find_display_first {cp : PyStr} {l : List PyStr} {x : PyStr}
    (h : find_display cp l = some x) :
    ∃ l₁ l₂, l = l₁ ++ x :: l₂ ∧
      ∀ y ∈ l₁, is_separator_item y = true ∨ py_endswith y cp = false := by
  induction l with
  | nil => simp [find_display] at h
  | cons a as ih =>
    rw [find_display] at h
    by_cases h1 : is_separator_item a
    · rw [if_pos h1] at h
      obtain ⟨l₁, l₂, heq, hall⟩ := ih h
      exact ⟨a :: l₁, l₂, by rw [heq, List.cons_append],
        fun y hy => (List.mem_cons.mp hy).elim (fun e => Or.inl (e ▸ h1))
          (hall y)⟩
    · rw [if_neg h1] at h
      by_cases h2 : py_endswith a cp
      · rw [if_pos h2] at h
        cases h
        exact ⟨[], as, rfl, by simp⟩
      · rw [if_neg h2] at h
        obtain ⟨l₁, l₂, heq, hall⟩ := ih h
        exact ⟨a :: l₁, l₂, by rw [heq, List.cons_append],
          fun y hy => (List.mem_cons.mp hy).elim
            (fun e => Or.inr (e ▸ Bool.eq_false_iff.mpr h2)) (hall y)⟩

/-- A miss of the `get_display_for_code` loop means no entry matches. -/
theorem find_display_none {cp : PyStr} {l : List PyStr}
    (h : find_display cp l = none) :
    ∀ y ∈ l, is_separator_item y = true ∨ py_endswith y cp = false := by
  induction l with
  | nil => simp
  | cons a as ih =>
    rw [find_display] at h
    by_cases h1 : is_separator_item a
    · rw [if_pos h1] at h
      exact fun y hy => (List.mem_cons.mp hy).elim (fun e => Or.inl (e ▸ h1))
        (ih h y)
    · rw [if_neg h1] at h
      by_cases h2 : py_endswith a cp
      · rw [if_pos h2] at h; cases h
      · rw [if_neg h2] at h
        exact fun y hy => (List.mem_cons.mp hy).elim
          (fun e => Or.inr (e ▸ Bool.eq_false_iff.mpr h2)) (ih h y)

/-- C6 counterexample: on a display list whose only entry is a separator,
`get_display_for_code` falls back to the list's first element and returns
that separator item, contrary to the claim that a separator is never
returned. -/
theorem get_display_for_code_returns_separator :
    get_display_for_code (pstr "en") [pstr "--- WHO Languages ---"]
      = some (pstr "--- WHO Languages ---") ∧
    is_separator_item (pstr "--- WHO Languages ---") = true := by decide

/-- C6 amended: for every code and every non-empty display list,
`get_display_for_code` returns an element of the list and never fails —
the first non-separator entry whose rendered suffix matches `(code)` when
one exists, and otherwise the list's first element, which may itself be a
separator item; on the empty list the lookup fails, and on the catalog's
built display list the result is never a separator item for any code. -/
theorem get_display_for_code_amended (code : PyStr) (l : List PyStr)
    (hne : l ≠ []) :
    (∃ x, get_display_for_code code l = some x ∧ x ∈ l ∧
      ((is_separator_item x = false ∧ py_endswith x (code_part code) = true ∧
        ∃ l₁ l₂, l = l₁ ++ x :: l₂ ∧
          ∀ y ∈ l₁, is_separator_item y = true
            ∨ py_endswith y (code_part code) = false) ∨
       ((∀ y ∈ l, is_separator_item y = true
            ∨ py_endswith y (code_part code) = false) ∧
        l.head? = some x))) ∧
    get_display_for_code code ([] : List PyStr) = none ∧
    (∀ c z, get_display_for_code c build_lang_display_list = some z →
      is_separator_item z = false) := by
  refine ⟨?_, by rfl, ?_⟩
  · cases hfd : find_display (code_part code) l with
    | some x =>
      obtain ⟨hm, hs, he⟩ := find_display_some hfd
      obtain ⟨l₁, l₂, heq, hall⟩ := find_display_first hfd
      exact ⟨x, by rw [get_display_for_code, hfd], hm,
        Or.inl ⟨hs, he, l₁, l₂, heq, hall⟩⟩
    | none =>
      cases l with
      | nil => exact absurd rfl hne
      | cons a as =>
        exact ⟨a, by rw [get_display_for_code, hfd]; rfl,
          List.mem_cons_self a as, Or.inr ⟨find_display_none hfd, rfl⟩⟩
  · intro c z hz
    rw [get_display_for_code] at hz
    cases hfd : find_display (code_part c) build_lang_display_list with
    | some x =>
      rw [hfd] at hz
      cases hz
      exact (find_display_some hfd).2.1
    | none =>
      rw [hfd] at hz
      cases hz
      decide

/-- Witness for C6 amended: the code `en` against the catalog's built
display list. -/
theorem get_display_for_code_amended_witness :
    build_lang_display_list ≠ [] ∧
    ((∃ x, get_display_for_code (pstr "en") build_lang_display_list = some x ∧
        x ∈ build_lang_display_list ∧
        ((is_separator_item x = false ∧
          py_endswith x (code_part (pstr "en")) = true ∧
          ∃ l₁ l₂, build_lang_display_list = l₁ ++ x :: l₂ ∧
            ∀ y ∈ l₁, is_separator_item y = true
              ∨ py_endswith y (code_part (pstr "en")) = false) ∨
         ((∀ y ∈ build_lang_display_list, is_separator_item y = true
              ∨ py_endswith y (code_part (pstr "en")) = false) ∧
          build_lang_display_list.head? = some x))) ∧
     get_display_for_code (pstr "en") ([] : List PyStr) = none ∧
     (∀ c z, get_display_for_code c build_lang_display_list = some z →
        is_separator_item z = false)) :=
  ⟨by decide,
   get_display_for_code_amended (pstr "en") build_lang_display_list (by decide)⟩

/-- Modelled from the spec (C7): the claim's literal reading of `parseCode` —
the text strictly between the last `(` and the trailing `)` (the final
closing parenthesis) when both parentheses are present, the input unchanged
otherwise.  Stated for comparison against the source's `parse_lang`. -/
def parseCode_claim_reading (s : PyStr) : PyStr :=
  if '(' ∈ s ∧ ')' ∈ s then
    let tail := after_last '(' s
    if tail.getLast? = some ')' then tail.dropLast else tail
  else s

/-- C7 counterexample: on `"English (en))"` the source's `parse_lang` strips
every trailing `)` and returns `"en"`, while the text between the last `(`
and the trailing `)` is `"en)"`. -/
theorem parse_lang_strip_counterexample :
    parse_lang (pstr "English (en))") = pstr "en" ∧
    parseCode_claim_reading (pstr "English (en))") = pstr "en)" ∧
    parse_lang (pstr "English (en))")
      ≠ parseCode_claim_reading (pstr "English (en))") := by decide

/-- C7 amended: `parse_lang` returns the text after the last `(` with all
leading and trailing `)` characters stripped when the input contains both a
`(` and a `)`, and the input unchanged otherwise; in particular on a
well-formed display string `name(code)` with a parenthesis-free code it
returns the code, `parse_lang "English (en)" = "en"`,
`parse_lang "en" = "en"`, and `parse_lang "English (en))" = "en"`. -/
theorem parse_lang_amended :
    (∀ name code : PyStr, '(' ∉ code → ')' ∉ code →
      parse_lang (name ++ '(' :: (code ++ [')'])) = code) ∧
    (∀ s : PyStr, ¬('(' ∈ s ∧ ')' ∈ s) → parse_lang s = s) ∧
    parse_lang (pstr "English (en)") = pstr "en" ∧
    parse_lang (pstr "en") = pstr "en" ∧
    parse_lang (pstr "English (en))") = pstr "en" := by
  refine ⟨?_, ?_, by decide, by decide, by decide⟩
  · intro name code hop hcp
    have hmem : '(' ∈ name ++ '(' :: (code ++ [')']) := by simp
    have hmem2 : ')' ∈ name ++ '(' :: (code ++ [')']) := by simp
    rw [parse_lang, if_pos ⟨hmem, hmem2⟩,
        after_last_append '(' name (code ++ [')'])
          (by
            intro hx
            rcases List.mem_append.mp hx with h | h
            · exact hop h
            · simp at h)]
    exact py_strip_char_append ')' code hcp
  · intro s hs
    rw [parse_lang, if_neg hs]

/-- Witness for C7 amended: the display string `"French (fr)"`. -/
theorem parse_lang_amended_witness :
    '(' ∉ pstr "fr" ∧ ')' ∉ pstr "fr" ∧
    parse_lang (pstr "French " ++ '(' :: (pstr "fr" ++ [')'])) = pstr "fr" :=
  ⟨by decide, by decide,
   parse_lang_amended.1 (pstr "French ") (pstr "fr") (by decide) (by decide)⟩

/-- C8 counterexample: with old contents `"old"` and new contents `"new"`,
the truncate-then-stream write of `save_usage`/`save_history` makes the
one-character prefix `"n"` observable on disk, a state that is neither the
old nor the new document. -/
theorem write_partial_state_observable :
    pstr "n" ∈ write_observable_states (pstr "old") (pstr "new") ∧
    pstr "n" ≠ pstr "old" ∧ pstr "n" ≠ pstr "new" := by decide

/-- C8 amended: each persistence write of `save_usage`/`save_history` is
whole-file — the final on-disk state is exactly the new serialized document,
written in one read-modify-write of the entire file — but it is not atomic:
the file is truncated in place and rewritten, so every prefix of the new
contents (including the empty file) is observable mid-write, and a crash
mid-write can leave truncated state for a subsequent load. -/
theorem write_whole_file_but_not_atomic (old new : PyStr) :
    (write_observable_states old new).head? = some old ∧
    (write_observable_states old new).getLast? = some new ∧
    [] ∈ write_observable_states old new ∧
    (∀ s ∈ write_observable_states old new,
      s = old ∨ ∃ k, s = new.take k) := by
  refine ⟨rfl, ?_, ?_, ?_⟩
  · rw [write_observable_states, List.range_succ, List.map_append,
        List.map_singleton]
    have hsplit :
        old :: (List.map (fun k => List.take k new)
            (List.range new.length) ++ [List.take new.length new])
          = (old :: List.map (fun k => List.take k new)
              (List.range new.length)) ++ [List.take new.length new] := rfl
    rw [hsplit, List.getLast?_concat, List.take_length]
  · exact List.mem_cons_of_mem _
      (List.mem_map.mpr ⟨0, by simp, by simp⟩)
  · intro s hs
    rcases List.mem_cons.mp hs with h | h
    · exact Or.inl h
    · obtain ⟨k, _, hk⟩ := List.mem_map.mp h
      exact Or.inr ⟨k, hk.symm⟩

/-- C3: loading the usage ledger when the stored `month_key` differs from the
current month resets `used_chars` to 0 and sets `month_key` to the current
month regardless of the prior `used_chars` value; and in every case `load_usage`
overwrites the stored `monthly_limit` with the caller-supplied value and
persists the reconciled record before returning. -/
theorem load_usage_month_rollover (limit : Int) (cur : PyStr)
    (store : UsageStore) (stored : UsageData)
    (hne : stored.month_key ≠ cur) :
    ((load_usage limit cur { usage_file := some stored }).1.used_chars = 0 ∧
     (load_usage limit cur { usage_file := some stored }).1.month_key = cur) ∧
    ((load_usage limit cur store).1.monthly_limit = limit ∧
     (load_usage limit cur store).2.usage_file
        = some (load_usage limit cur store).1) := by
  refine ⟨by simp [load_usage, hne], ?_⟩
  rcases store with ⟨_ | d⟩
  · simp [load_usage]
  · by_cases h : d.month_key = cur <;> simp [load_usage, h]

/-- Witness for C3: a ledger stored for 2025-11 with 12345 used characters,
loaded in 2025-12 with a configured limit of 400000. -/
theorem load_usage_month_rollover_witness :
    (UsageData.month_key
        { month_key := pstr "2025-11", used_chars := 12345,
          monthly_limit := 500000 } ≠ pstr "2025-12") ∧
    (((load_usage 400000 (pstr "2025-12")
        { usage_file := some { month_key := pstr "2025-11", used_chars := 12345,
                               monthly_limit := 500000 } }).1.used_chars = 0 ∧
      (load_usage 400000 (pstr "2025-12")
        { usage_file := some { month_key := pstr "2025-11", used_chars := 12345,
                               monthly_limit := 500000 } }).1.month_key
        = pstr "2025-12") ∧
     ((load_usage 400000 (pstr "2025-12")
        { usage_file := some { month_key := pstr "2025-11", used_chars := 12345,
                               monthly_limit := 500000 } }).1.monthly_limit = 400000 ∧
      (load_usage 400000 (pstr "2025-12")
        { usage_file := some { month_key := pstr "2025-11", used_chars := 12345,
                               monthly_limit := 500000 } }).2.usage_file
        = some (load_usage 400000 (pstr "2025-12")
            { usage_file := some { month_key := pstr "2025-11", used_chars := 12345,
                                   monthly_limit := 500000 } }).1)) :=
  ⟨by decide, load_usage_month_rollover 400000 (pstr "2025-12") _ _ (by decide)⟩

/-- C4: for a history log of at most 500 entries, `append_history_entry`
inserts the new entry at position 0 and truncates to at most 500 entries by
dropping the oldest: with fewer than 500 prior entries nothing is dropped,
and inserting into a log of exactly 500 entries yields exactly 500 with the
oldest evicted and newest-first order preserved. -/
theorem append_history_entry_cap (entries : List HistoryEntry)
    (e : HistoryEntry) (h : entries.length ≤ 500) :
    (append_history_entry entries e).head? = some e ∧
    (append_history_entry entries e).length ≤ 500 ∧
    (entries.length < 500 → append_history_entry entries e = e :: entries) ∧
    (entries.length = 500 →
      append_history_entry entries e = e :: entries.dropLast ∧
      (append_history_entry entries e).length = 500) := by
  unfold append_history_entry
  by_cases hc : (e :: entries).length > 500
  · have heq : entries.length = 500 := by
      simp only [List.length_cons] at hc; omega
    have htake : (e :: entries).take 500 = e :: entries.dropLast := by
      rw [List.dropLast_eq_take, heq]
      show (e :: entries).take (499 + 1) = e :: entries.take 499
      rw [List.take_succ_cons]
    rw [if_pos hc, htake]
    refine ⟨rfl, ?_, fun hlt => absurd heq (by omega), fun _ => ⟨rfl, ?_⟩⟩
    · simp [List.length_dropLast, heq]
    · simp [List.length_dropLast, heq]
  · rw [if_neg hc]
    simp only [List.length_cons, gt_iff_lt, not_lt] at hc
    exact ⟨rfl, by simp only [List.length_cons]; omega, fun _ => rfl,
      fun h500 => absurd h500 (by omega)⟩

/-- Witness for C4: inserting a 501st entry into a log of exactly 500
entries. -/
theorem append_history_entry_cap_witness :
    ((List.replicate 500
        ({ timestamp := pstr "t", source_lang := pstr "en",
           target_lang := pstr "th", chars := 1, source_text := pstr "a",
           translated_text := pstr "b" } : HistoryEntry)).length ≤ 500) ∧
    ((append_history_entry
        (List.replicate 500
          { timestamp := pstr "t", source_lang := pstr "en",
            target_lang := pstr "th", chars := 1, source_text := pstr "a",
            translated_text := pstr "b" })
        { timestamp := pstr "u", source_lang := pstr "th",
          target_lang := pstr "en", chars := 2, source_text := pstr "c",
          translated_text := pstr "d" }).head?
      = some { timestamp := pstr "u", source_lang := pstr "th",
               target_lang := pstr "en", chars := 2, source_text := pstr "c",
               translated_text := pstr "d" } ∧
     (append_history_entry
        (List.replicate 500
          { timestamp := pstr "t", source_lang := pstr "en",
            target_lang := pstr "th", chars := 1, source_text := pstr "a",
            translated_text := pstr "b" })
        { timestamp := pstr "u", source_lang := pstr "th",
          target_lang := pstr "en", chars := 2, source_text := pstr "c",
          translated_text := pstr "d" }).length ≤ 500 ∧
     ((List.replicate 500
        ({ timestamp := pstr "t", source_lang := pstr "en",
           target_lang := pstr "th", chars := 1, source_text := pstr "a",
           translated_text := pstr "b" } : HistoryEntry)).length < 500 →
       append_history_entry
        (List.replicate 500
          { timestamp := pstr "t", source_lang := pstr "en",
            target_lang := pstr "th", chars := 1, source_text := pstr "a",
            translated_text := pstr "b" })
        { timestamp := pstr "u", source_lang := pstr "th",
          target_lang := pstr "en", chars := 2, source_text := pstr "c",
          translated_text := pstr "d" }
        = { timestamp := pstr "u", source_lang := pstr "th",
            target_lang := pstr "en", chars := 2, source_text := pstr "c",
            translated_text := pstr "d" }
          :: List.replicate 500
               { timestamp := pstr "t", source_lang := pstr "en",
                 target_lang := pstr "th", chars := 1, source_text := pstr "a",
                 translated_text := pstr "b" }) ∧
     ((List.replicate 500
        ({ timestamp := pstr "t", source_lang := pstr "en",
           target_lang := pstr "th", chars := 1, source_text := pstr "a",
           translated_text := pstr "b" } : HistoryEntry)).length = 500 →
       append_history_entry
        (List.replicate 500
          { timestamp := pstr "t", source_lang := pstr "en",
            target_lang := pstr "th", chars := 1, source_text := pstr "a",
            translated_text := pstr "b" })
        { timestamp := pstr "u", source_lang := pstr "th",
          target_lang := pstr "en", chars := 2, source_text := pstr "c",
          translated_text := pstr "d" }
        = { timestamp := pstr "u", source_lang := pstr "th",
            target_lang := pstr "en", chars := 2, source_text := pstr "c",
            translated_text := pstr "d" }
          :: (List.replicate 500
               ({ timestamp := pstr "t", source_lang := pstr "en",
                  target_lang := pstr "th", chars := 1, source_text := pstr "a",
                  translated_text := pstr "b" } : HistoryEntry)).dropLast ∧
       (append_history_entry
          (List.replicate 500
            { timestamp := pstr "t", source_lang := pstr "en",
              target_lang := pstr "th", chars := 1, source_text := pstr "a",
              translated_text := pstr "b" })
          { timestamp := pstr "u", source_lang := pstr "th",
            target_lang := pstr "en", chars := 2, source_text := pstr "c",
            translated_text := pstr "d" }).length = 500)) :=
  ⟨by rw [List.length_replicate],
   append_history_entry_cap _ _ (by rw [List.length_replicate])⟩

/-- C9: for every valid parsed month key (month between 1 and 12), the reset
date computed by `update_usage_labels` is the first day of the month
following the key: the day is 1, the resulting month is again valid, the
linearised month index advances by exactly one, and December of year `y`
rolls over to January of year `y + 1`. -/
theorem next_reset_succ_month (y m : Nat) (h1 : 1 ≤ m) (h2 : m ≤ 12) :
    (next_reset y m).2.2 = 1 ∧
    1 ≤ (next_reset y m).2.1 ∧ (next_reset y m).2.1 ≤ 12 ∧
    month_index (next_reset y m).1 (next_reset y m).2.1
      = month_index y m + 1 ∧
    next_reset y 12 = (y + 1, 1, 1) := by
  by_cases h : m = 12 <;>
    simp [next_reset, month_index, h] <;> omega

/-- Witness for C9: the reset date following 2025-12. -/
theorem next_reset_succ_month_witness :
    (1 ≤ 12 ∧ 12 ≤ 12) ∧
    ((next_reset 2025 12).2.2 = 1 ∧
     1 ≤ (next_reset 2025 12).2.1 ∧ (next_reset 2025 12).2.1 ≤ 12 ∧
     month_index (next_reset 2025 12).1 (next_reset 2025 12).2.1
       = month_index 2025 12 + 1 ∧
     next_reset 2025 12 = (2026, 1, 1)) :=
  ⟨by decide, next_reset_succ_month 2025 12 (by decide) (by decide)⟩

/-- The gate events a `translate` run emits once it reaches the external
call, in the order the source asks them. -/
def passed_gate_trace (st : AppState) (text sl tl : PyStr) : List Event :=
  ((if sl = tl then [Event.gateAsked Gate.sameLang true] else []) ++
    (if 5000 ≤ text.length then [Event.gateAsked Gate.largeText true] else [])) ++
  (if st.usage_data.monthly_limit
      < st.usage_data.used_chars + (text.length : Int)
    then [Event.gateAsked Gate.overLimit true] else [])

/-- Path equation: empty (stripped) input returns at once. -/
theorem translate_empty_eq (st : AppState) (input src tgt : PyStr)
    (conf : Confirmations) (api : ApiBehavior) (ts : PyStr)
    (h : py_strip input = []) :
    TranslatorApp.translate st input src tgt conf api ts
      = (.emptyInput, st, []) := by
  simp only [TranslatorApp.translate]
  rw [if_pos h]

/-- Path equation: a declined same-language gate cancels the run. -/
theorem translate_cancel_same_eq (st : AppState) (input src tgt : PyStr)
    (conf : Confirmations) (api : ApiBehavior) (ts : PyStr)
    (hne : ¬py_strip input = [])
    (h : parse_lang src = parse_lang tgt) (hc : conf.sameLang = false) :
    TranslatorApp.translate st input src tgt conf api ts
      = (.cancelled, st, [Event.gateAsked Gate.sameLang false]) := by
  simp only [TranslatorApp.translate]
  rw [if_neg hne, if_pos ⟨h, hc⟩]

/-- Path equation: a declined large-text gate cancels the run. -/
theorem translate_cancel_large_eq (st : AppState) (input src tgt : PyStr)
    (conf : Confirmations) (api : ApiBehavior) (ts : PyStr)
    (hne : ¬py_strip input = [])
    (hp1 : parse_lang src = parse_lang tgt → conf.sameLang = true)
    (h : 5000 ≤ (py_strip input).length) (hc : conf.largeText = false) :
    TranslatorApp.translate st input src tgt conf api ts
      = (.cancelled, st,
         (if parse_lang src = parse_lang tgt
            then [Event.gateAsked Gate.sameLang true] else []) ++
         [Event.gateAsked Gate.largeText false]) := by
  have hB : ¬(parse_lang src = parse_lang tgt ∧ conf.sameLang = false) := by
    rintro ⟨he, hf⟩; rw [hp1 he] at hf; cases hf
  simp only [TranslatorApp.translate]
  rw [if_neg hne, if_neg hB, if_pos ⟨h, hc⟩]

/-- Path equation: a declined quota-overrun gate cancels the run. -/
theorem translate_cancel_quota_eq (st : AppState) (input src tgt : PyStr)
    (conf : Confirmations) (api : ApiBehavior) (ts : PyStr)
    (hne : ¬py_strip input = [])
    (hp1 : parse_lang src = parse_lang tgt → conf.sameLang = true)
    (hp2 : 5000 ≤ (py_strip input).length → conf.largeText = true)
    (h : st.usage_data.monthly_limit
        < st.usage_data.used_chars + ((py_strip input).length : Int))
    (hc : conf.overLimit = false) :
    TranslatorApp.translate st input src tgt conf api ts
      = (.cancelled, st,
         ((if parse_lang src = parse_lang tgt
             then [Event.gateAsked Gate.sameLang true] else []) ++
          (if 5000 ≤ (py_strip input).length
             then [Event.gateAsked Gate.largeText true] else [])) ++
         [Event.gateAsked Gate.overLimit false]) := by
  have hB : ¬(parse_lang src = parse_lang tgt ∧ conf.sameLang = false) := by
    rintro ⟨he, hf⟩; rw [hp1 he] at hf; cases hf
  have hC : ¬(5000 ≤ (py_strip input).length ∧ conf.largeText = false) := by
    rintro ⟨he, hf⟩; rw [hp2 he] at hf; cases hf
  simp only [TranslatorApp.translate]
  rw [if_neg hne, if_neg hB, if_neg hC, if_pos ⟨h, hc⟩]

/-- Path equation: all gates pass and the external call fails. -/
theorem translate_failure_eq (st : AppState) (input src tgt : PyStr)
    (conf : Confirmations) (api : ApiBehavior) (ts : PyStr)
    (e : ApiException)
    (hne : ¬py_strip input = [])
    (hp1 : parse_lang src = parse_lang tgt → conf.sameLang = true)
    (hp2 : 5000 ≤ (py_strip input).length → conf.largeText = true)
    (hp3 : st.usage_data.monthly_limit
        < st.usage_data.used_chars + ((py_strip input).length : Int) →
        conf.overLimit = true)
    (herr : google_translate api = .error e) :
    TranslatorApp.translate st input src tgt conf api ts
      = (.failed e, st,
         passed_gate_trace st (py_strip input) (parse_lang src)
             (parse_lang tgt) ++
           [Event.apiCall (py_strip input) (parse_lang src)
             (parse_lang tgt)]) := by
  have hB : ¬(parse_lang src = parse_lang tgt ∧ conf.sameLang = false) := by
    rintro ⟨he, hf⟩; rw [hp1 he] at hf; cases hf
  have hC : ¬(5000 ≤ (py_strip input).length ∧ conf.largeText = false) := by
    rintro ⟨he, hf⟩; rw [hp2 he] at hf; cases hf
  have hD : ¬(st.usage_data.monthly_limit
      < st.usage_data.used_chars + ((py_strip input).length : Int)
      ∧ conf.overLimit = false) := by
    rintro ⟨he, hf⟩; rw [hp3 he] at hf; cases hf
  simp only [TranslatorApp.translate, passed_gate_trace]
  rw [if_neg hne, if_neg hB, if_neg hC, if_neg hD, herr]

/-- Path equation: all gates pass and the external call succeeds; the usage
is committed and the history entry recorded and persisted. -/
theorem translate_success_eq (st : AppState) (input src tgt : PyStr)
    (conf : Confirmations) (api : ApiBehavior) (ts : PyStr) (t : PyStr)
    (hne : ¬py_strip input = [])
    (hp1 : parse_lang src = parse_lang tgt → conf.sameLang = true)
    (hp2 : 5000 ≤ (py_strip input).length → conf.largeText = true)
    (hp3 : st.usage_data.monthly_limit
        < st.usage_data.used_chars + ((py_strip input).length : Int) →
        conf.overLimit = true)
    (hok : google_translate api = .ok t) :
    TranslatorApp.translate st input src tgt conf api ts
      = (.success t,
         { usage_data :=
             { st.usage_data with
                 used_chars := st.usage_data.used_chars
                   + ((py_strip input).length : Int) },
           history_entries := append_history_entry st.history_entries
             { timestamp := ts, source_lang := parse_lang src,
               target_lang := parse_lang tgt,
               chars := (py_strip input).length,
               source_text := py_strip input, translated_text := t },
           usage_file := some
             { st.usage_data with
                 used_chars := st.usage_data.used_chars
                   + ((py_strip input).length : Int) },
           history_file := some (append_history_entry st.history_entries
             { timestamp := ts, source_lang := parse_lang src,
               target_lang := parse_lang tgt,
               chars := (py_strip input).length,
               source_text := py_strip input, translated_text := t }) },
         passed_gate_trace st (py_strip input) (parse_lang src)
             (parse_lang tgt) ++
           [Event.apiCall (py_strip input) (parse_lang src)
             (parse_lang tgt)]) := by
  have hB : ¬(parse_lang src = parse_lang tgt ∧ conf.sameLang = false) := by
    rintro ⟨he, hf⟩; rw [hp1 he] at hf; cases hf
  have hC : ¬(5000 ≤ (py_strip input).length ∧ conf.largeText = false) := by
    rintro ⟨he, hf⟩; rw [hp2 he] at hf; cases hf
  have hD : ¬(st.usage_data.monthly_limit
      < st.usage_data.used_chars + ((py_strip input).length : Int)
      ∧ conf.overLimit = false) := by
    rintro ⟨he, hf⟩; rw [hp3 he] at hf; cases hf
  simp only [TranslatorApp.translate, passed_gate_trace]
  rw [if_neg hne, if_neg hB, if_neg hC, if_neg hD, hok]

/-- `insert(0, entry)` followed by truncation keeps the new entry in
front. -/
theorem append_history_entry_head (entries : List HistoryEntry)
    (e : HistoryEntry) :
    (append_history_entry entries e).head? = some e := by
  unfold append_history_entry
  by_cases h : (e :: entries).length > 500
  · rw [if_pos h]
    show ((e :: entries).take (499 + 1)).head? = some e
    rw [List.take_succ_cons]
    rfl
  · rw [if_neg h]
    rfl

/-- A sample ledger close to its monthly limit, used by the witnesses. -/
def sample_usage : UsageData :=
  { month_key := pstr "2025-11", used_chars := 499999,
    monthly_limit := 500000 }

/-- A sample controller state used by the witnesses. -/
def sample_state : AppState :=
  { usage_data := sample_usage, history_entries := [],
    usage_file := some sample_usage, history_file := some [] }

/-- A user who confirms every gate, used by the witnesses. -/
def yes_to_all : Confirmations :=
  { sameLang := true, largeText := true, overLimit := true }

/-- A successful external response, used by the witnesses. -/
def sample_ok_api : ApiBehavior :=
  .respond 200 (pstr "") (some [some (pstr "สวัสดี")])

/-- An HTTP 403 external response, used by the witnesses. -/
def sample_http403_api : ApiBehavior :=
  .respond 403 (pstr "quota exceeded") (some [])

/-- C1: on a successful translation, committing adds exactly the request's
character count (the length of the stripped text, a non-negative quantity)
to `used_chars`, with no clamping at `monthly_limit`, leaves `month_key` (and
`monthly_limit`) unchanged, and persists the updated record. -/
theorem translate_commit_adds_chars (st : AppState) (input src tgt : PyStr)
    (conf : Confirmations) (api : ApiBehavior) (ts t : PyStr)
    (hne : ¬py_strip input = [])
    (hp1 : parse_lang src = parse_lang tgt → conf.sameLang = true)
    (hp2 : 5000 ≤ (py_strip input).length → conf.largeText = true)
    (hp3 : st.usage_data.monthly_limit
        < st.usage_data.used_chars + ((py_strip input).length : Int) →
        conf.overLimit = true)
    (hok : google_translate api = .ok t) :
    (TranslatorApp.translate st input src tgt conf api ts).1 = .success t ∧
    (TranslatorApp.translate st input src tgt conf api ts).2.1.usage_data.used_chars
      = st.usage_data.used_chars + ((py_strip input).length : Int) ∧
    (TranslatorApp.translate st input src tgt conf api ts).2.1.usage_data.month_key
      = st.usage_data.month_key ∧
    (TranslatorApp.translate st input src tgt conf api ts).2.1.usage_data.monthly_limit
      = st.usage_data.monthly_limit ∧
    (TranslatorApp.translate st input src tgt conf api ts).2.1.usage_file
      = some (TranslatorApp.translate st input src tgt conf api ts).2.1.usage_data := by
  rw [translate_success_eq st input src tgt conf api ts t hne hp1 hp2 hp3 hok]
  exact ⟨rfl, rfl, rfl, rfl, rfl⟩

/-- Witness for C1: translating `" Hello "` (5 stripped characters) with
499999 of 500000 characters already used — the overrun gate is confirmed and
`used_chars` becomes 500004, past the limit, showing the absence of
clamping. -/
theorem translate_commit_adds_chars_witness :
    (¬py_strip (pstr " Hello ") = []) ∧
    (parse_lang (pstr "English (en)") = parse_lang (pstr "Thai (th)") →
      yes_to_all.sameLang = true) ∧
    (5000 ≤ (py_strip (pstr " Hello ")).length →
      yes_to_all.largeText = true) ∧
    (sample_state.usage_data.monthly_limit
        < sample_state.usage_data.used_chars
          + ((py_strip (pstr " Hello ")).length : Int) →
      yes_to_all.overLimit = true) ∧
    (google_translate sample_ok_api = .ok (pstr "สวัสดี")) ∧
    ((TranslatorApp.translate sample_state (pstr " Hello ")
        (pstr "English (en)") (pstr "Thai (th)") yes_to_all sample_ok_api
        (pstr "ts")).1 = .success (pstr "สวัสดี") ∧
     (TranslatorApp.translate sample_state (pstr " Hello ")
        (pstr "English (en)") (pstr "Thai (th)") yes_to_all sample_ok_api
        (pstr "ts")).2.1.usage_data.used_chars
       = sample_state.usage_data.used_chars
          + ((py_strip (pstr " Hello ")).length : Int) ∧
     (TranslatorApp.translate sample_state (pstr " Hello ")
        (pstr "English (en)") (pstr "Thai (th)") yes_to_all sample_ok_api
        (pstr "ts")).2.1.usage_data.month_key
       = sample_state.usage_data.month_key ∧
     (TranslatorApp.translate sample_state (pstr " Hello ")
        (pstr "English (en)") (pstr "Thai (th)") yes_to_all sample_ok_api
        (pstr "ts")).2.1.usage_data.monthly_limit
       = sample_state.usage_data.monthly_limit ∧
     (TranslatorApp.translate sample_state (pstr " Hello ")
        (pstr "English (en)") (pstr "Thai (th)") yes_to_all sample_ok_api
        (pstr "ts")).2.1.usage_file
       = some (TranslatorApp.translate sample_state (pstr " Hello ")
          (pstr "English (en)") (pstr "Thai (th)") yes_to_all sample_ok_api
          (pstr "ts")).2.1.usage_data) :=
  ⟨by decide, by decide, by decide, by decide, rfl,
   translate_commit_adds_chars sample_state (pstr " Hello ")
     (pstr "English (en)") (pstr "Thai (th)") yes_to_all sample_ok_api
     (pstr "ts") (pstr "สวัสดี")
     (by decide) (by decide) (by decide) (by decide) rfl⟩

/-- C2: when the external call fails — transport/HTTP error or a response
with no usable translation — `translate` returns the classified error and
the whole controller state (in-memory ledger and history and their persisted
copies) is exactly what it was before the call. -/
theorem translate_failure_preserves_state (st : AppState)
    (input src tgt : PyStr) (conf : Confirmations) (api : ApiBehavior)
    (ts : PyStr) (e : ApiException)
    (hne : ¬py_strip input = [])
    (hp1 : parse_lang src = parse_lang tgt → conf.sameLang = true)
    (hp2 : 5000 ≤ (py_strip input).length → conf.largeText = true)
    (hp3 : st.usage_data.monthly_limit
        < st.usage_data.used_chars + ((py_strip input).length : Int) →
        conf.overLimit = true)
    (herr : google_translate api = .error e) :
    (TranslatorApp.translate st input src tgt conf api ts).1 = .failed e ∧
    (TranslatorApp.translate st input src tgt conf api ts).2.1 = st := by
  rw [translate_failure_eq st input src tgt conf api ts e hne hp1 hp2 hp3 herr]
  exact ⟨rfl, rfl⟩

/-- Witness for C2 (Scenario D): the collaborator answers HTTP 403; the
result is the classified HTTP error and the state is untouched. -/
theorem translate_failure_preserves_state_witness :
    (¬py_strip (pstr "Hello") = []) ∧
    (parse_lang (pstr "English (en)") = parse_lang (pstr "Thai (th)") →
      yes_to_all.sameLang = true) ∧
    (5000 ≤ (py_strip (pstr "Hello")).length →
      yes_to_all.largeText = true) ∧
    (sample_state.usage_data.monthly_limit
        < sample_state.usage_data.used_chars
          + ((py_strip (pstr "Hello")).length : Int) →
      yes_to_all.overLimit = true) ∧
    (google_translate sample_http403_api
      = .error (.httpError 403 (pstr "quota exceeded"))) ∧
    ((TranslatorApp.translate sample_state (pstr "Hello")
        (pstr "English (en)") (pstr "Thai (th)") yes_to_all
        sample_http403_api (pstr "ts")).1
      = .failed (.httpError 403 (pstr "quota exceeded")) ∧
     (TranslatorApp.translate sample_state (pstr "Hello")
        (pstr "English (en)") (pstr "Thai (th)") yes_to_all
        sample_http403_api (pstr "ts")).2.1 = sample_state) :=
  ⟨by decide, by decide, by decide, by decide, rfl,
   translate_failure_preserves_state sample_state (pstr "Hello")
     (pstr "English (en)") (pstr "Thai (th)") yes_to_all sample_http403_api
     (pstr "ts") (.httpError 403 (pstr "quota exceeded"))
     (by decide) (by decide) (by decide) (by decide) rfl⟩

/-- C10: `translate` strips surrounding whitespace once, up front, and every
downstream use is of the stripped text: the external call is made with it,
the recorded history entry holds it as source text with `chars` equal to its
length, and the committed usage grows by that length (so surrounding
whitespace never counts against the quota). -/
theorem translate_trims_input_once (st : AppState) (input src tgt : PyStr)
    (conf : Confirmations) (api : ApiBehavior) (ts t : PyStr)
    (hne : ¬py_strip input = [])
    (hp1 : parse_lang src = parse_lang tgt → conf.sameLang = true)
    (hp2 : 5000 ≤ (py_strip input).length → conf.largeText = true)
    (hp3 : st.usage_data.monthly_limit
        < st.usage_data.used_chars + ((py_strip input).length : Int) →
        conf.overLimit = true)
    (hok : google_translate api = .ok t) :
    Event.apiCall (py_strip input) (parse_lang src) (parse_lang tgt)
      ∈ (TranslatorApp.translate st input src tgt conf api ts).2.2 ∧
    (TranslatorApp.translate st input src tgt conf api ts).2.1.history_entries.head?
      = some { timestamp := ts, source_lang := parse_lang src,
               target_lang := parse_lang tgt,
               chars := (py_strip input).length,
               source_text := py_strip input, translated_text := t } ∧
    (TranslatorApp.translate st input src tgt conf api ts).2.1.usage_data.used_chars
      = st.usage_data.used_chars + ((py_strip input).length : Int) := by
  rw [translate_success_eq st input src tgt conf api ts t hne hp1 hp2 hp3 hok]
  refine ⟨by simp, ?_, rfl⟩
  exact append_history_entry_head _ _

/-- Witness for C10: `" Hello "` strips to `"Hello"`; the call, the history
entry and the committed count all use the 5-character stripped text. -/
theorem translate_trims_input_once_witness :
    (¬py_strip (pstr " Hello ") = []) ∧
    (parse_lang (pstr "English (en)") = parse_lang (pstr "Thai (th)") →
      yes_to_all.sameLang = true) ∧
    (5000 ≤ (py_strip (pstr " Hello ")).length →
      yes_to_all.largeText = true) ∧
    (sample_state.usage_data.monthly_limit
        < sample_state.usage_data.used_chars
          + ((py_strip (pstr " Hello ")).length : Int) →
      yes_to_all.overLimit = true) ∧
    (google_translate sample_ok_api = .ok (pstr "สวัสดี")) ∧
    (Event.apiCall (py_strip (pstr " Hello "))
        (parse_lang (pstr "English (en)")) (parse_lang (pstr "Thai (th)"))
      ∈ (TranslatorApp.translate sample_state (pstr " Hello ")
          (pstr "English (en)") (pstr "Thai (th)") yes_to_all sample_ok_api
          (pstr "ts")).2.2 ∧
     (TranslatorApp.translate sample_state (pstr " Hello ")
        (pstr "English (en)") (pstr "Thai (th)") yes_to_all sample_ok_api
        (pstr "ts")).2.1.history_entries.head?
       = some { timestamp := pstr "ts",
                source_lang := parse_lang (pstr "English (en)"),
                target_lang := parse_lang (pstr "Thai (th)"),
                chars := (py_strip (pstr " Hello ")).length,
                source_text := py_strip (pstr " Hello "),
                translated_text := pstr "สวัสดี" } ∧
     (TranslatorApp.translate sample_state (pstr " Hello ")
        (pstr "English (en)") (pstr "Thai (th)") yes_to_all sample_ok_api
        (pstr "ts")).2.1.usage_data.used_chars
       = sample_state.usage_data.used_chars
          + ((py_strip (pstr " Hello ")).length : Int)) :=
  ⟨by decide, by decide, by decide, by decide, rfl,
   translate_trims_input_once sample_state (pstr " Hello ")
     (pstr "English (en)") (pstr "Thai (th)") yes_to_all sample_ok_api
     (pstr "ts") (pstr "สวัสดี")
     (by decide) (by decide) (by decide) (by decide) rfl⟩

/-- On a run that reaches the external call, the event trace is strictly
ordered by gate rank, contains exactly one external call, every asked gate
was answered yes, and each gate event implies its triggering condition. -/
theorem passed_trace_facts (st : AppState) (text sl tl : PyStr) :
    (((passed_gate_trace st text sl tl
        ++ [Event.apiCall text sl tl]).map event_rank).Chain' (· < ·)) ∧
    ((passed_gate_trace st text sl tl
        ++ [Event.apiCall text sl tl]).countP is_api_event ≤ 1) ∧
    (∀ g a, Event.gateAsked g a
        ∈ passed_gate_trace st text sl tl ++ [Event.apiCall text sl tl] →
      a = true) ∧
    (∀ a, Event.gateAsked Gate.sameLang a
        ∈ passed_gate_trace st text sl tl ++ [Event.apiCall text sl tl] →
      sl = tl) ∧
    (∀ a, Event.gateAsked Gate.largeText a
        ∈ passed_gate_trace st text sl tl ++ [Event.apiCall text sl tl] →
      5000 ≤ text.length) ∧
    (∀ a, Event.gateAsked Gate.overLimit a
        ∈ passed_gate_trace st text sl tl ++ [Event.apiCall text sl tl] →
      st.usage_data.monthly_limit
        < st.usage_data.used_chars + (text.length : Int)) := by
  unfold passed_gate_trace
  split_ifs with h1 h2 h3 <;>
    refine ⟨?_, ?_, ?_, ?_, ?_, ?_⟩ <;>
      simp_all [event_rank, is_api_event, List.chain'_cons]

/-- C5: the confirmation gates of `translate` are applied in the fixed order
same-language, large-request, quota-overrun (after the empty-input
rejection); the external collaborator is called at most once and only after
every asked gate was answered yes; an empty stripped input returns
immediately with no events and no state change; a negative decision at any
gate cancels with the state untouched and without the external collaborator
being called; and each gate event occurs only under its triggering
condition. -/
theorem translate_gate_discipline (st : AppState) (input src tgt : PyStr)
    (conf : Confirmations) (api : ApiBehavior) (ts : PyStr) :
    (((TranslatorApp.translate st input src tgt conf api ts).2.2.map
        event_rank).Chain' (· < ·)) ∧
    ((TranslatorApp.translate st input src tgt conf api ts).2.2.countP
        is_api_event ≤ 1) ∧
    (py_strip input = [] →
      (TranslatorApp.translate st input src tgt conf api ts).1 = .emptyInput ∧
      (TranslatorApp.translate st input src tgt conf api ts).2.1 = st ∧
      (TranslatorApp.translate st input src tgt conf api ts).2.2 = []) ∧
    (∀ g, Event.gateAsked g false
        ∈ (TranslatorApp.translate st input src tgt conf api ts).2.2 →
      (TranslatorApp.translate st input src tgt conf api ts).1 = .cancelled ∧
      (TranslatorApp.translate st input src tgt conf api ts).2.1 = st ∧
      ∀ e ∈ (TranslatorApp.translate st input src tgt conf api ts).2.2,
        is_api_event e = false) ∧
    (∀ x sl tl, Event.apiCall x sl tl
        ∈ (TranslatorApp.translate st input src tgt conf api ts).2.2 →
      ∀ g a, Event.gateAsked g a
          ∈ (TranslatorApp.translate st input src tgt conf api ts).2.2 →
        a = true) ∧
    (∀ a, Event.gateAsked Gate.sameLang a
        ∈ (TranslatorApp.translate st input src tgt conf api ts).2.2 →
      parse_lang src = parse_lang tgt) ∧
    (∀ a, Event.gateAsked Gate.largeText a
        ∈ (TranslatorApp.translate st input src tgt conf api ts).2.2 →
      5000 ≤ (py_strip input).length) ∧
    (∀ a, Event.gateAsked Gate.overLimit a
        ∈ (TranslatorApp.translate st input src tgt conf api ts).2.2 →
      st.usage_data.monthly_limit
        < st.usage_data.used_chars + ((py_strip input).length : Int)) := by
  by_cases hA : py_strip input = []
  · rw [translate_empty_eq st input src tgt conf api ts hA]
    exact ⟨by simp, by simp, fun _ => ⟨rfl, rfl, rfl⟩, by simp, by simp,
      by simp, by simp, by simp⟩
  · by_cases hc1 : parse_lang src = parse_lang tgt ∧ conf.sameLang = false
    · obtain ⟨hB, hcf⟩ := hc1
      rw [translate_cancel_same_eq st input src tgt conf api ts hA hB hcf]
      refine ⟨by simp [event_rank], by simp [is_api_event],
        fun h => absurd h hA, ?_, by simp, fun a _ => hB, by simp, by simp⟩
      intro g hg
      exact ⟨by trivial, by trivial, by simp [is_api_event]⟩
    · have hp1 : parse_lang src = parse_lang tgt → conf.sameLang = true := by
        intro he
        cases hcs : conf.sameLang with
        | false => exact absurd ⟨he, hcs⟩ hc1
        | true => rfl
      by_cases hc2 : 5000 ≤ (py_strip input).length ∧ conf.largeText = false
      · obtain ⟨hC, hcf⟩ := hc2
        rw [translate_cancel_large_eq st input src tgt conf api ts hA hp1
              hC hcf]
        by_cases hB : parse_lang src = parse_lang tgt
        · simp only [if_pos hB, List.cons_append, List.nil_append]
          refine ⟨by simp [event_rank], by simp [is_api_event],
            fun h => absurd h hA, ?_, by simp, fun a _ => hB,
            fun a _ => hC, by simp⟩
          intro g hg
          exact ⟨by trivial, by trivial, by simp [is_api_event]⟩
        · simp only [if_neg hB, List.nil_append]
          refine ⟨by simp [event_rank], by simp [is_api_event],
            fun h => absurd h hA, ?_, by simp, ?_, fun a _ => hC, by simp⟩
          · intro g hg
            exact ⟨by trivial, by trivial, by simp [is_api_event]⟩
          · intro a ha
            simp at ha
      · have hp2 : 5000 ≤ (py_strip input).length → conf.largeText = true := by
          intro he
          cases hcl : conf.largeText with
          | false => exact absurd ⟨he, hcl⟩ hc2
          | true => rfl
        by_cases hc3 : st.usage_data.monthly_limit
            < st.usage_data.used_chars + ((py_strip input).length : Int)
            ∧ conf.overLimit = false
        · obtain ⟨hD, hcf⟩ := hc3
          rw [translate_cancel_quota_eq st input src tgt conf api ts hA hp1
                hp2 hD hcf]
          by_cases hB : parse_lang src = parse_lang tgt <;>
            by_cases hC : 5000 ≤ (py_strip input).length <;>
              [simp only [if_pos hB, if_pos hC, List.cons_append,
                List.nil_append];
               simp only [if_pos hB, if_neg hC, List.cons_append,
                List.nil_append, List.append_nil];
               simp only [if_neg hB, if_pos hC, List.cons_append,
                List.nil_append];
               simp only [if_neg hB, if_neg hC, List.nil_append]] <;>
            refine ⟨by simp [event_rank], by simp [is_api_event],
              fun h => absurd h hA, fun g hg =>
                ⟨by trivial, by trivial, by simp [is_api_event]⟩, by simp,
              fun a ha => ?_, fun a ha => ?_, fun a _ => hD⟩ <;>
            first
              | exact hB
              | exact hC
              | simp at ha
        · have hp3 : st.usage_data.monthly_limit
              < st.usage_data.used_chars + ((py_strip input).length : Int) →
              conf.overLimit = true := by
            intro he
            cases hco : conf.overLimit with
            | false => exact absurd ⟨he, hco⟩ hc3
            | true => rfl
          obtain ⟨f1, f2, f3, f4, f5, f6⟩ :=
            passed_trace_facts st (py_strip input) (parse_lang src)
              (parse_lang tgt)
          cases hgt : google_translate api with
          | error e =>
            rw [translate_failure_eq st input src tgt conf api ts e hA hp1
                  hp2 hp3 hgt]
            exact ⟨f1, f2, fun h => absurd h hA,
              fun g hg => absurd (f3 g false hg) Bool.false_ne_true,
              fun x sl tl _ => f3, f4, f5, f6⟩
          | ok t =>
            rw [translate_success_eq st input src tgt conf api ts t hA hp1
                  hp2 hp3 hgt]
            exact ⟨f1, f2, fun h => absurd h hA,
              fun g hg => absurd (f3 g false hg) Bool.false_ne_true,
              fun x sl tl _ => f3, f4, f5, f6⟩

example :
    (TranslatorApp.translate
      { usage_data := { month_key := pstr "2025-11", used_chars := 10,
                        monthly_limit := 500000 },
        history_entries := [], usage_file := none, history_file := none }
      (pstr " Hello ") (pstr "English (en)") (pstr "Thai (th)")
      { sameLang := true, largeText := true, overLimit := true }
      (.respond 200 (pstr "") (some [some (pstr "สวัสดี")])) (pstr "ts")).1
    = .success (pstr "สวัสดี") := by decide

